import Mathlib

/-!
Shallow embedding of the anthropic-sdk repository's message data model
(`src/crates/anthropic/src/messages.rs`) and of the Bedrock streaming
reconstruction adapter (`src/crates/bedrock/src/bedrock.rs`,
`AnthropicBedrock::messages_stream`), together with theorems checking the
specification's claims about them.

Conventions of the embedding:
- `serde_json::Value` is modelled by the inductive `Json`.
- Rust `u32`/`u64` counters are modelled by `Nat` (no claim depends on
  wrap-around behaviour; the source only stores and copies these values).
- Fallible Rust code returning `anyhow::Result` is modelled by
  `Except String`.
- A Rust panic (`unreachable!()`, `Option::unwrap` on `None`) inside the
  streaming generator is modelled by the dedicated `StreamItem.panicked`
  marker, after which the generator produces nothing further; panics inside
  serde deserializers are modelled by `DeserResult.panicked`.
- The `async_stream::stream!` generator of `messages_stream` is modelled as
  a pure function from the list of successfully received native events to
  the list of yielded items, with the generator's mutable state
  (`event_message_delta`, `block_starts`) threaded explicitly.
-/

/-- Model of `serde_json::Value`. -/
inductive Json where
  | null
  | bool (b : Bool)
  | num (n : Int)
  | str (s : String)
  | arr (xs : List Json)
  | obj (fields : List (String × Json))

/-- Field lookup on a JSON object (`None` on non-objects), as serde's map
access behaves during struct deserialization. -/
def Json.getField : Json → String → Option Json
  | .obj fields, key => List.lookup key fields
  | _, _ => none

/-- `Role` from messages.rs (serde snake_case: "user" / "assistant"). -/
inductive Role where
  | user
  | assistant

/-- `MediaType` from messages.rs. -/
inductive MediaType where
  | imageJpeg
  | imagePng
  | imageGif
  | imageWebp

/-- `ImageSource` from messages.rs (`kind` is the serde-renamed `type`). -/
structure ImageSource where
  kind : String
  media_type : MediaType
  data : String

/-- `ContentPart` from messages.rs: tagged union discriminated by `type`. -/
inductive ContentPart where
  | text (text : String)
  | textDelta (text : String)
  | image (source : ImageSource)
  | toolResult (tool_use_id : String) (content : String)
  | toolUse (id : String) (name : String) (input : Json)
  | inputJsonDelta (partial_json : String)

/-- `Content` from messages.rs: a bare string or a sequence of parts. -/
inductive Content where
  | single (s : String)
  | multi (parts : List ContentPart)

/-- `Message` from messages.rs. -/
structure Message where
  role : Role
  content : Content

/-- `Message::user` from messages.rs. -/
def Message.user (content : Content) : Message :=
  { role := Role.user, content := content }

/-- `Metadata` from messages.rs. -/
structure Metadata where
  user_id : Option String

/-- `ToolChoiceKind` from messages.rs. -/
inductive ToolChoiceKind where
  | auto
  | any
  | tool (name : String)

/-- `ToolChoice` from messages.rs. -/
structure ToolChoice where
  kind : ToolChoiceKind

/-- `ToolInputSchema` from messages.rs. -/
structure ToolInputSchema where
  kind : String
  properties : Json
  required : List String

/-- `Tool` from messages.rs. -/
structure Tool where
  description : Option String
  name : String
  input_schema : ToolInputSchema

/-- `StopReason` from messages.rs. -/
inductive StopReason where
  | endTurn
  | maxTokens
  | stopSequence
  | toolUse

/-- `Usage` from messages.rs: `input_tokens` may be unknown mid-stream. -/
structure Usage where
  input_tokens : Option Nat
  output_tokens : Nat

/-- `EventMessageDelta` from messages.rs: the staged stop information. -/
structure EventMessageDelta where
  stop_reason : StopReason
  stop_sequence : Option String

/-- `ErrorDetails` from messages.rs. -/
structure ErrorDetails where
  kind : String
  message : String

/-- `MessageResponse` as constructed by bedrock.rs (it carries a `kind`
field set to "message", flattened into the wire shape). -/
structure MessageResponse where
  id : String
  kind : String
  model : String
  role : String
  content : List ContentPart
  stop_reason : Option StopReason
  stop_sequence : Option String
  usage : Usage

/-- The canonical streaming `Event` union from messages.rs. -/
inductive Event where
  | ping
  | messageStart (message : MessageResponse)
  | contentBlockStart (index : Nat) (content_block : ContentPart)
  | contentBlockDelta (index : Nat) (delta : ContentPart)
  | contentBlockStop (index : Nat)
  | messageDelta (delta : EventMessageDelta) (usage : Usage)
  | messageStop
  | error (details : ErrorDetails)

/-- `CreateMessageRequest` from messages.rs. -/
structure CreateMessageRequest where
  model : String
  messages : List Message
  max_tokens : Nat
  metadata : Option Metadata
  stop_sequences : Option (List String)
  system : Option Content
  temperature : Option Float
  tool_choice : Option ToolChoice
  tools : Option (List Tool)
  top_k : Option Nat
  top_p : Option Float

/-- `CreateMessageRequestBuilder` from messages.rs: every field optional
until finalization. -/
structure CreateMessageRequestBuilder where
  model? : Option String
  messages? : Option (List Message)
  max_tokens? : Option Nat
  metadata? : Option Metadata
  stop_sequences? : Option (List String)
  system? : Option String
  temperature? : Option Float
  tool_choice? : Option ToolChoice
  tools? : Option (List Tool)
  top_k? : Option Nat
  top_p? : Option Float

/-- `CreateMessageRequest::builder()`: all fields start unset. -/
def CreateMessageRequest.builder : CreateMessageRequestBuilder :=
  { model? := none, messages? := none, max_tokens? := none, metadata? := none
  , stop_sequences? := none, system? := none, temperature? := none
  , tool_choice? := none, tools? := none, top_k? := none, top_p? := none }

/-- Builder setter `model`. -/
def CreateMessageRequestBuilder.model (b : CreateMessageRequestBuilder)
    (model : String) : CreateMessageRequestBuilder :=
  { b with model? := some model }

/-- Builder setter `messages`. -/
def CreateMessageRequestBuilder.messages (b : CreateMessageRequestBuilder)
    (messages : List Message) : CreateMessageRequestBuilder :=
  { b with messages? := some messages }

/-- Builder setter `max_tokens`; the source stores the value unchecked. -/
def CreateMessageRequestBuilder.max_tokens (b : CreateMessageRequestBuilder)
    (max_tokens : Nat) : CreateMessageRequestBuilder :=
  { b with max_tokens? := some max_tokens }

/-- Builder setter `metadata`. -/
def CreateMessageRequestBuilder.metadata (b : CreateMessageRequestBuilder)
    (metadata : Metadata) : CreateMessageRequestBuilder :=
  { b with metadata? := some metadata }

/-- Builder setter `stop_sequences`. -/
def CreateMessageRequestBuilder.stop_sequences (b : CreateMessageRequestBuilder)
    (stop_sequences : List String) : CreateMessageRequestBuilder :=
  { b with stop_sequences? := some stop_sequences }

/-- Builder setter `system`. -/
def CreateMessageRequestBuilder.system (b : CreateMessageRequestBuilder)
    (system : String) : CreateMessageRequestBuilder :=
  { b with system? := some system }

/-- Builder setter `temperature`. -/
def CreateMessageRequestBuilder.temperature (b : CreateMessageRequestBuilder)
    (temperature : Float) : CreateMessageRequestBuilder :=
  { b with temperature? := some temperature }

/-- Builder setter `tool_choice`. -/
def CreateMessageRequestBuilder.tool_choice (b : CreateMessageRequestBuilder)
    (tool_choice : ToolChoice) : CreateMessageRequestBuilder :=
  { b with tool_choice? := some tool_choice }

/-- Builder setter `tools`. -/
def CreateMessageRequestBuilder.tools (b : CreateMessageRequestBuilder)
    (tools : List Tool) : CreateMessageRequestBuilder :=
  { b with tools? := some tools }

/-- Builder setter `top_k`. -/
def CreateMessageRequestBuilder.top_k (b : CreateMessageRequestBuilder)
    (top_k : Nat) : CreateMessageRequestBuilder :=
  { b with top_k? := some top_k }

/-- Builder setter `top_p`. -/
def CreateMessageRequestBuilder.top_p (b : CreateMessageRequestBuilder)
    (top_p : Float) : CreateMessageRequestBuilder :=
  { b with top_p? := some top_p }

/-- `CreateMessageRequestBuilder::build`: checks `model`, `messages`,
`max_tokens` in the source's struct-literal order (each with `?` early
return), copies everything else, and converts `system` with `.into()`
(a bare string becomes `Content::Single`). -/
def CreateMessageRequestBuilder.build (b : CreateMessageRequestBuilder) :
    Except String CreateMessageRequest :=
  match b.model? with
  | none => .error "model is required"
  | some model =>
    match b.messages? with
    | none => .error "messages is required"
    | some messages =>
      match b.max_tokens? with
      | none => .error "max_tokens is required"
      | some max_tokens =>
        .ok { model := model
            , messages := messages
            , max_tokens := max_tokens
            , metadata := b.metadata?
            , stop_sequences := b.stop_sequences?
            , system := b.system?.map Content.single
            , temperature := b.temperature?
            , tool_choice := b.tool_choice?
            , tools := b.tools?
            , top_k := b.top_k?
            , top_p := b.top_p? }

/-!
## Deserialization of `Content` and `Message` (messages.rs)
-/

/-- Result of running a serde deserializer that may also panic
(`Option::unwrap` on `None` inside `content_deserializer`). -/
inductive DeserResult (α : Type) where
  | ok (a : α)
  | err (e : String)
  | panicked

/-- Parse of `MediaType` (serde renames to MIME strings). -/
def parseMediaType : Json → Except String MediaType
  | .str "image/jpeg" => .ok .imageJpeg
  | .str "image/png" => .ok .imagePng
  | .str "image/gif" => .ok .imageGif
  | .str "image/webp" => .ok .imageWebp
  | _ => .error "unknown media type"

/-- Parse of `ImageSource` (field `type` renamed to `kind`). -/
def parseImageSource (j : Json) : Except String ImageSource :=
  match j.getField "type", j.getField "media_type", j.getField "data" with
  | some (.str kind), some mt, some (.str data) => do
      let media_type ← parseMediaType mt
      .ok { kind := kind, media_type := media_type, data := data }
  | _, _, _ => .error "invalid image source"

/-- Parse of one `ContentPart`, discriminated by the `type` tag
(serde snake_case variant names). -/
def parseContentPart (j : Json) : Except String ContentPart :=
  match j.getField "type" with
  | some (.str "text") =>
      match j.getField "text" with
      | some (.str t) => .ok (.text t)
      | _ => .error "invalid text part"
  | some (.str "text_delta") =>
      match j.getField "text" with
      | some (.str t) => .ok (.textDelta t)
      | _ => .error "invalid text_delta part"
  | some (.str "image") =>
      match j.getField "source" with
      | some src => do
          let source ← parseImageSource src
          .ok (.image source)
      | _ => .error "invalid image part"
  | some (.str "tool_result") =>
      match j.getField "tool_use_id", j.getField "content" with
      | some (.str i), some (.str c) => .ok (.toolResult i c)
      | _, _ => .error "invalid tool_result part"
  | some (.str "tool_use") =>
      match j.getField "id", j.getField "name", j.getField "input" with
      | some (.str i), some (.str n), some input => .ok (.toolUse i n input)
      | _, _, _ => .error "invalid tool_use part"
  | some (.str "input_json_delta") =>
      match j.getField "partial_json" with
      | some (.str p) => .ok (.inputJsonDelta p)
      | _ => .error "invalid input_json_delta part"
  | _ => .error "unknown content part type"

/-- Parse of a list of `ContentPart`s; any element failing fails the list
(as `Vec<ContentPart>` deserialization does). -/
def parseContentParts : List Json → Except String (List ContentPart)
  | [] => .ok []
  | j :: rest => do
      let p ← parseContentPart j
      let ps ← parseContentParts rest
      .ok (p :: ps)

/-- `optional_content_deserializer` from messages.rs: the untagged helper
tries `None` (JSON null), then `Single(&str)`, then `Multi(Vec<ContentPart>)`;
an empty incoming string is collapsed to `None`. -/
def optional_content_deserializer (j : Json) : Except String (Option Content) :=
  match j with
  | .null => .ok none
  | .str s => if s = "" then .ok none else .ok (some (.single s))
  | .arr xs =>
      match parseContentParts xs with
      | .ok parts => .ok (some (.multi parts))
      | .error _ => .error "data did not match any variant of untagged enum ContentDeserializeHelper"
  | _ => .error "data did not match any variant of untagged enum ContentDeserializeHelper"

/-- `content_deserializer` from messages.rs:
`Ok(optional_content_deserializer(d)?.unwrap())` — the `None` outcome is
unwrapped, i.e. it panics. -/
def content_deserializer (j : Json) : DeserResult Content :=
  match optional_content_deserializer j with
  | .error e => .err e
  | .ok (some c) => .ok c
  | .ok none => .panicked

/-- Parse of `Role` ("user" / "assistant"). -/
def parseRole : Json → Except String Role
  | .str "user" => .ok .user
  | .str "assistant" => .ok .assistant
  | _ => .error "unknown variant of Role"

/-- Derived `Message` deserialization: field `role` plainly, field
`content` through `content_deserializer` (the `deserialize_with`
attribute on `Message.content`). -/
def deserialize_message (j : Json) : DeserResult Message :=
  match j.getField "role", j.getField "content" with
  | some rj, some cj =>
      match parseRole rj with
      | .error e => .err e
      | .ok role =>
          match content_deserializer cj with
          | .err e => .err e
          | .panicked => .panicked
          | .ok content => .ok { role := role, content := content }
  | _, _ => .err "missing field"

/-!
## The Bedrock native streaming protocol and the reconstruction adapter

Native events model `aws_sdk_bedrockruntime::types::ConverseStreamOutput`
as consumed by `AnthropicBedrock::messages_stream`; the SDK enums are
non-exhaustive, so each carries an `other`/`unknown` possibility that the
source handles with `unreachable!()`.
-/

/-- Payload of a native content-block-delta
(`types::ContentBlockDelta`). -/
inductive NativeDelta where
  | text (s : String)
  | toolUse (inputJson : String)
  | other

/-- Payload of a native explicit content-block-start
(`types::ContentBlockStart`). -/
inductive NativeStart where
  | toolUse (tool_use_id : String) (name : String)
  | other

/-- Native stop reason (`types::StopReason`, non-exhaustive). -/
inductive NativeStopReason where
  | endTurn
  | maxTokens
  | stopSequence
  | toolUse
  | other

/-- Native usage record carried by the trailing metadata signal. -/
structure NativeUsage where
  input_tokens : Nat
  output_tokens : Nat

/-- One native streaming event (`types::ConverseStreamOutput`). -/
inductive NativeEvent where
  | contentBlockDelta (index : Nat) (delta : Option NativeDelta)
  | contentBlockStart (index : Nat) (start : Option NativeStart)
  | contentBlockStop (index : Nat)
  | messageStart
  | messageStop (stop_reason : NativeStopReason)
  | metadata (usage : Option NativeUsage)
  | unknown

/-- One item yielded by the adapter's generator: a canonical event, an
`anyhow` error, or a panic that aborts the generator. -/
inductive StreamItem where
  | ok (e : Event)
  | err (msg : String)
  | panicked

/-- The generator's per-stream mutable state: the staged terminal delta
(`event_message_delta`) and the announced-index set (`block_starts`,
a `HashSet<u64>` modelled as a duplicate-free insertion list). -/
structure AdapterState where
  event_message_delta : Option EventMessageDelta
  block_starts : List Nat

/-- The state at stream acquisition: nothing staged, no index announced. -/
def initState : AdapterState :=
  { event_message_delta := none, block_starts := [] }

/-- Translation of a native stop reason; the non-exhaustive `_` arm is
`unreachable!()`, i.e. `none` = panic. -/
def convertStopReason : NativeStopReason → Option StopReason
  | .endTurn => some .endTurn
  | .maxTokens => some .maxTokens
  | .stopSequence => some .stopSequence
  | .toolUse => some .toolUse
  | .other => none

/-- One iteration of the adapter's `while let` loop body on one native
event: the items yielded and the successor state (`none` when the body
panics, aborting the generator). Mirrors the `match event` in
`messages_stream` arm by arm, including yield order (the synthesized
`ContentBlockStart` is yielded before the delta payload is examined). -/
def stepEvent (s : AdapterState) (ev : NativeEvent) :
    List StreamItem × Option AdapterState :=
  match ev with
  | .contentBlockDelta index d =>
      if index ∈ s.block_starts then
        match d with
        | some (.text t) =>
            ([.ok (.contentBlockDelta index (.textDelta t))], some s)
        | some (.toolUse pj) =>
            ([.ok (.contentBlockDelta index (.inputJsonDelta pj))], some s)
        | some .other => ([.panicked], none)
        | none => ([.panicked], none)
      else
        let s' : AdapterState := { s with block_starts := index :: s.block_starts }
        match d with
        | some (.text t) =>
            ([.ok (.contentBlockStart index (.text "")),
              .ok (.contentBlockDelta index (.textDelta t))], some s')
        | some (.toolUse pj) =>
            ([.ok (.contentBlockStart index (.text "")),
              .ok (.contentBlockDelta index (.inputJsonDelta pj))], some s')
        | some .other => ([.ok (.contentBlockStart index (.text "")), .panicked], none)
        | none => ([.ok (.contentBlockStart index (.text "")), .panicked], none)
  | .contentBlockStart index st =>
      let s' : AdapterState :=
        if index ∈ s.block_starts then s
        else { s with block_starts := index :: s.block_starts }
      match st with
      | some (.toolUse id name) =>
          ([.ok (.contentBlockStart index (.toolUse id name (.str "\x7b\x7d")))], some s')
      | some .other => ([.panicked], none)
      | none => ([.ok (.contentBlockStart index (.text ""))], some s')
  | .contentBlockStop index =>
      ([.ok (.contentBlockStop index)], some s)
  | .messageStart => ([], some s)
  | .messageStop r =>
      match s.event_message_delta with
      | some _ => ([.err "duplicated message delta"], some s)
      | none =>
          match convertStopReason r with
          | some sr =>
              ([], some { s with event_message_delta := some { stop_reason := sr, stop_sequence := none } })
          | none => ([.panicked], none)
  | .metadata u =>
      match s.event_message_delta with
      | none => ([.err "no message delta"], some s)
      | some d =>
          match u with
          | none => ([.panicked], none)
          | some usage =>
              ([.ok (.messageDelta d { input_tokens := some usage.input_tokens
                                     , output_tokens := usage.output_tokens }),
                .ok .messageStop],
               some { s with event_message_delta := none })
  | .unknown => ([.panicked], none)

/-- Running the adapter loop over a list of native events from a given
state; a panicking step aborts with nothing further produced. -/
def processEvents : AdapterState → List NativeEvent → List StreamItem
  | _, [] => []
  | s, ev :: rest =>
      match stepEvent s ev with
      | (out, some s') => out ++ processEvents s' rest
      | (out, none) => out

/-- The adapter state after consuming a list of native events (`none`
when a panic aborted the generator along the way). -/
def stateAfter : AdapterState → List NativeEvent → Option AdapterState
  | s, [] => some s
  | s, ev :: rest =>
      match stepEvent s ev with
      | (_, some s') => stateAfter s' rest
      | (_, none) => none

/-- The synthesized opening `MessageStart` payload: request id, kind
"message", the request's model, role "assistant", empty content and
zero-valued usage. -/
def initialMessage (request_id model : String) : MessageResponse :=
  { id := request_id, kind := "message", model := model, role := "assistant"
  , content := [], stop_reason := none, stop_sequence := none
  , usage := { input_tokens := none, output_tokens := 0 } }

/-- `AnthropicBedrock::messages_stream`'s generator: yields the
synthesized `MessageStart` before consuming any native event, then runs
the loop from the initial state. -/
def messages_stream (request_id model : String) (evs : List NativeEvent) :
    List StreamItem :=
  .ok (.messageStart (initialMessage request_id model)) :: processEvents initState evs

/-!
## Item classifiers used by the claims
-/

/-- Is an item a yielded canonical `MessageDelta`? -/
def isMessageDeltaItem : StreamItem → Bool
  | .ok (.messageDelta _ _) => true
  | _ => false

/-- Is an item a yielded canonical `MessageStop`? -/
def isMessageStopItem : StreamItem → Bool
  | .ok .messageStop => true
  | _ => false

/-- Is an item a yielded `Err` (the adapter's protocol-violation surface)? -/
def isErrItem : StreamItem → Bool
  | .err _ => true
  | _ => false

/-- Is an item the panic marker? -/
def isPanicItem : StreamItem → Bool
  | .panicked => true
  | _ => false

/-- Is an item a yielded content-block event (start, delta or stop)? -/
def isBlockItem : StreamItem → Bool
  | .ok (.contentBlockStart _ _) => true
  | .ok (.contentBlockDelta _ _) => true
  | .ok (.contentBlockStop _) => true
  | _ => false

/-- Native events whose processing yields only content-block events and
never panics, never touches the staged terminal state: well-formed block
traffic and the discarded native message-start. -/
def cleanCore : NativeEvent → Bool
  | .contentBlockDelta _ (some (.text _)) => true
  | .contentBlockDelta _ (some (.toolUse _)) => true
  | .contentBlockStart _ none => true
  | .contentBlockStart _ (some (.toolUse _ _)) => true
  | .contentBlockStop _ => true
  | .messageStart => true
  | _ => false

/-- Native events that are not terminal signals and never panic while the
staged state is empty: clean block traffic plus trailing metadata (which
errs, not panics, when nothing is staged). -/
def safeNoStop : NativeEvent → Bool
  | .metadata _ => true
  | e => cleanCore e

/-- Native events whose processing never panics in any state: clean block
traffic, recognized terminal signals, metadata carrying usage. -/
def safeEvent : NativeEvent → Bool
  | .messageStop .other => false
  | .messageStop _ => true
  | .metadata (some _) => true
  | e => cleanCore e

/-!
## Infrastructure lemmas about the adapter fold
-/

theorem processEvents_append (evs₁ : List NativeEvent) :
    ∀ (evs₂ : List NativeEvent) (s s' : AdapterState),
      stateAfter s evs₁ = some s' →
      processEvents s (evs₁ ++ evs₂) =
        processEvents s evs₁ ++ processEvents s' evs₂ := by
  induction evs₁ with
  | nil =>
      intro evs₂ s s' h
      simp only [stateAfter, Option.some.injEq] at h
      subst h
      simp [processEvents]
  | cons e rest ih =>
      intro evs₂ s s' h
      simp only [stateAfter] at h
      simp only [List.cons_append, processEvents]
      cases hstep : stepEvent s e with
      | mk out os =>
        rw [hstep] at h
        cases os with
        | none => simp at h
        | some s₁ =>
            simp only at h
            change out ++ processEvents s₁ (rest ++ evs₂) =
              out ++ processEvents s₁ rest ++ processEvents s' evs₂
            rw [ih _ _ _ h, List.append_assoc]

theorem stateAfter_append (evs₁ : List NativeEvent) :
    ∀ (evs₂ : List NativeEvent) (s s' : AdapterState),
      stateAfter s evs₁ = some s' →
      stateAfter s (evs₁ ++ evs₂) = stateAfter s' evs₂ := by
  induction evs₁ with
  | nil =>
      intro evs₂ s s' h
      simp only [stateAfter, Option.some.injEq] at h
      subst h
      simp
  | cons e rest ih =>
      intro evs₂ s s' h
      simp only [stateAfter] at h
      simp only [List.cons_append, stateAfter]
      cases hstep : stepEvent s e with
      | mk out os =>
        rw [hstep] at h
        cases os with
        | none => simp at h
        | some s₁ =>
            simp only at h
            exact ih _ _ _ h

theorem getLast?_append_pair {α : Type} (l : List α) (a b : α) :
    (l ++ [a, b]).getLast? = some b := by
  induction l with
  | nil => rfl
  | cons x xs ih =>
      cases xs with
      | nil => rfl
      | cons y ys =>
          simp only [List.cons_append] at ih ⊢
          rw [List.getLast?_cons_cons]
          exact ih

theorem stepEvent_cleanCore (s : AdapterState) (e : NativeEvent)
    (h : cleanCore e = true) :
    ∃ out s', stepEvent s e = (out, some s') ∧
      s'.event_message_delta = s.event_message_delta ∧
      ∀ it ∈ out, isBlockItem it = true := by
  cases e with
  | contentBlockDelta index d =>
      by_cases hmem : index ∈ s.block_starts
      · match d with
        | some (.text t) =>
            refine ⟨[.ok (.contentBlockDelta index (.textDelta t))], s, ?_, rfl, ?_⟩
            · simp [stepEvent, hmem]
            · simp [isBlockItem]
        | some (.toolUse pj) =>
            refine ⟨[.ok (.contentBlockDelta index (.inputJsonDelta pj))], s, ?_, rfl, ?_⟩
            · simp [stepEvent, hmem]
            · simp [isBlockItem]
        | some .other => simp [cleanCore] at h
        | none => simp [cleanCore] at h
      · match d with
        | some (.text t) =>
            refine ⟨[.ok (.contentBlockStart index (.text "")),
                     .ok (.contentBlockDelta index (.textDelta t))],
                    { s with block_starts := index :: s.block_starts }, ?_, rfl, ?_⟩
            · simp [stepEvent, hmem]
            · simp [isBlockItem]
        | some (.toolUse pj) =>
            refine ⟨[.ok (.contentBlockStart index (.text "")),
                     .ok (.contentBlockDelta index (.inputJsonDelta pj))],
                    { s with block_starts := index :: s.block_starts }, ?_, rfl, ?_⟩
            · simp [stepEvent, hmem]
            · simp [isBlockItem]
        | some .other => simp [cleanCore] at h
        | none => simp [cleanCore] at h
  | contentBlockStart index st =>
      match st with
      | some (.toolUse id name) =>
          refine ⟨[.ok (.contentBlockStart index (.toolUse id name (.str "\x7b\x7d")))],
                  if index ∈ s.block_starts then s
                  else { s with block_starts := index :: s.block_starts }, ?_, ?_, ?_⟩
          · simp [stepEvent]
          · by_cases hmem : index ∈ s.block_starts <;> simp [hmem]
          · simp [isBlockItem]
      | some .other => simp [cleanCore] at h
      | none =>
          refine ⟨[.ok (.contentBlockStart index (.text ""))],
                  if index ∈ s.block_starts then s
                  else { s with block_starts := index :: s.block_starts }, ?_, ?_, ?_⟩
          · simp [stepEvent]
          · by_cases hmem : index ∈ s.block_starts <;> simp [hmem]
          · simp [isBlockItem]
  | contentBlockStop index =>
      exact ⟨[.ok (.contentBlockStop index)], s, rfl, rfl, by simp [isBlockItem]⟩
  | messageStart => exact ⟨[], s, rfl, rfl, by simp⟩
  | messageStop r => simp [cleanCore] at h
  | metadata u => simp [cleanCore] at h
  | unknown => simp [cleanCore] at h

theorem processEvents_cleanCore (evs : List NativeEvent) :
    ∀ s : AdapterState, (∀ e ∈ evs, cleanCore e = true) →
      ∃ s', stateAfter s evs = some s' ∧
        s'.event_message_delta = s.event_message_delta ∧
        ∀ it ∈ processEvents s evs, isBlockItem it = true := by
  induction evs with
  | nil => intro s _; exact ⟨s, rfl, rfl, by simp [processEvents]⟩
  | cons e rest ih =>
      intro s h
      obtain ⟨out, s₁, hstep, hemd, hout⟩ :=
        stepEvent_cleanCore s e (h e (by simp))
      obtain ⟨s', hrest, hemd', hout'⟩ :=
        ih s₁ (fun e' he' => h e' (by simp [he']))
      refine ⟨s', ?_, hemd'.trans hemd, ?_⟩
      · simp only [stateAfter, hstep]
        exact hrest
      · simp only [processEvents, hstep]
        intro it hit
        rcases List.mem_append.mp hit with hmem | hmem
        · exact hout it hmem
        · exact hout' it hmem

theorem stepEvent_safeNoStop (s : AdapterState) (e : NativeEvent)
    (hs : s.event_message_delta = none) (h : safeNoStop e = true) :
    ∃ out s', stepEvent s e = (out, some s') ∧
      s'.event_message_delta = none ∧
      ∀ it ∈ out, isMessageDeltaItem it = false := by
  cases e with
  | metadata u =>
      refine ⟨[.err "no message delta"], s, ?_, hs, ?_⟩
      · simp [stepEvent, hs]
      · simp [isMessageDeltaItem]
  | messageStop r => simp [safeNoStop, cleanCore] at h
  | unknown => simp [safeNoStop, cleanCore] at h
  | contentBlockDelta index d =>
      obtain ⟨out, s', hstep, hemd, hout⟩ :=
        stepEvent_cleanCore s (.contentBlockDelta index d) (by simpa [safeNoStop] using h)
      refine ⟨out, s', hstep, hemd.trans hs, fun it hit => ?_⟩
      have := hout it hit
      cases it with
      | ok ev => cases ev <;> simp_all [isBlockItem, isMessageDeltaItem]
      | err m => simp [isMessageDeltaItem]
      | panicked => simp [isMessageDeltaItem]
  | contentBlockStart index st =>
      obtain ⟨out, s', hstep, hemd, hout⟩ :=
        stepEvent_cleanCore s (.contentBlockStart index st) (by simpa [safeNoStop] using h)
      refine ⟨out, s', hstep, hemd.trans hs, fun it hit => ?_⟩
      have := hout it hit
      cases it with
      | ok ev => cases ev <;> simp_all [isBlockItem, isMessageDeltaItem]
      | err m => simp [isMessageDeltaItem]
      | panicked => simp [isMessageDeltaItem]
  | contentBlockStop index =>
      exact ⟨[.ok (.contentBlockStop index)], s, rfl, hs, by simp [isMessageDeltaItem]⟩
  | messageStart => exact ⟨[], s, rfl, hs, by simp⟩

theorem processEvents_safeNoStop (evs : List NativeEvent) :
    ∀ s : AdapterState, s.event_message_delta = none →
      (∀ e ∈ evs, safeNoStop e = true) →
      ∃ s', stateAfter s evs = some s' ∧
        s'.event_message_delta = none ∧
        ∀ it ∈ processEvents s evs, isMessageDeltaItem it = false := by
  induction evs with
  | nil => intro s hs _; exact ⟨s, rfl, hs, by simp [processEvents]⟩
  | cons e rest ih =>
      intro s hs h
      obtain ⟨out, s₁, hstep, hemd, hout⟩ :=
        stepEvent_safeNoStop s e hs (h e (by simp))
      obtain ⟨s', hrest, hemd', hout'⟩ :=
        ih s₁ hemd (fun e' he' => h e' (by simp [he']))
      refine ⟨s', ?_, hemd', ?_⟩
      · simp only [stateAfter, hstep]
        exact hrest
      · simp only [processEvents, hstep]
        intro it hit
        rcases List.mem_append.mp hit with hmem | hmem
        · exact hout it hmem
        · exact hout' it hmem

theorem stepEvent_safeEvent (s : AdapterState) (e : NativeEvent)
    (h : safeEvent e = true) :
    ∃ out s', stepEvent s e = (out, some s') := by
  cases e with
  | messageStop r =>
      cases hemd : s.event_message_delta with
      | some d => exact ⟨[.err "duplicated message delta"], s, by simp [stepEvent, hemd]⟩
      | none =>
          cases r with
          | other => simp [safeEvent] at h
          | endTurn =>
              exact ⟨[], AdapterState.mk (some (EventMessageDelta.mk .endTurn none)) s.block_starts,
                by simp [stepEvent, hemd, convertStopReason]⟩
          | maxTokens =>
              exact ⟨[], AdapterState.mk (some (EventMessageDelta.mk .maxTokens none)) s.block_starts,
                by simp [stepEvent, hemd, convertStopReason]⟩
          | stopSequence =>
              exact ⟨[], AdapterState.mk (some (EventMessageDelta.mk .stopSequence none)) s.block_starts,
                by simp [stepEvent, hemd, convertStopReason]⟩
          | toolUse =>
              exact ⟨[], AdapterState.mk (some (EventMessageDelta.mk .toolUse none)) s.block_starts,
                by simp [stepEvent, hemd, convertStopReason]⟩
  | metadata u =>
      cases u with
      | none => simp [safeEvent, cleanCore] at h
      | some usage =>
          cases hemd : s.event_message_delta with
          | none => exact ⟨[.err "no message delta"], s, by simp [stepEvent, hemd]⟩
          | some d =>
              exact ⟨[.ok (.messageDelta d { input_tokens := some usage.input_tokens
                                           , output_tokens := usage.output_tokens }),
                      .ok .messageStop],
                     { s with event_message_delta := none },
                by simp [stepEvent, hemd]⟩
  | unknown => simp [safeEvent, cleanCore] at h
  | contentBlockDelta index d =>
      obtain ⟨out, s', hstep, _, _⟩ :=
        stepEvent_cleanCore s (.contentBlockDelta index d) (by simpa [safeEvent] using h)
      exact ⟨out, s', hstep⟩
  | contentBlockStart index st =>
      obtain ⟨out, s', hstep, _, _⟩ :=
        stepEvent_cleanCore s (.contentBlockStart index st) (by simpa [safeEvent] using h)
      exact ⟨out, s', hstep⟩
  | contentBlockStop index => exact ⟨_, s, rfl⟩
  | messageStart => exact ⟨[], s, rfl⟩

theorem stateAfter_safeEvent (evs : List NativeEvent) :
    ∀ s : AdapterState, (∀ e ∈ evs, safeEvent e = true) →
      ∃ s', stateAfter s evs = some s' := by
  induction evs with
  | nil => intro s _; exact ⟨s, rfl⟩
  | cons e rest ih =>
      intro s h
      obtain ⟨out, s₁, hstep⟩ := stepEvent_safeEvent s e (h e (by simp))
      obtain ⟨s', hrest⟩ := ih s₁ (fun e' he' => h e' (by simp [he']))
      refine ⟨s', ?_⟩
      simp only [stateAfter, hstep]
      exact hrest

theorem blockItem_not_messageDelta (it : StreamItem) (h : isBlockItem it = true) :
    isMessageDeltaItem it = false := by
  cases it with
  | ok e => cases e <;> simp_all [isBlockItem, isMessageDeltaItem]
  | err m => rfl
  | panicked => rfl

theorem blockItem_not_messageStop (it : StreamItem) (h : isBlockItem it = true) :
    isMessageStopItem it = false := by
  cases it with
  | ok e => cases e <;> simp_all [isBlockItem, isMessageStopItem]
  | err m => rfl
  | panicked => rfl

theorem countP_zero_of_blockItems (l : List StreamItem) (p : StreamItem → Bool)
    (hl : ∀ it ∈ l, isBlockItem it = true)
    (hp : ∀ it, isBlockItem it = true → p it = false) : l.countP p = 0 := by
  rw [List.countP_eq_zero]
  intro a ha
  simp [hp a (hl a ha)]

/-!
## Claim theorems
-/

/-- C2 (confirmed): for every stream produced by the reconstruction
adapter, the first emitted item is a synthesized `MessageStart` whose
message has an empty content list and zero-valued usage, and it is emitted
before any native event is consumed (the remainder of the stream is the
loop over the native events, and the head does not depend on them). -/
theorem c2_message_start_first (request_id model : String)
    (evs : List NativeEvent) :
    ∃ m : MessageResponse,
      (messages_stream request_id model evs).head? = some (.ok (.messageStart m)) ∧
      m.content = [] ∧
      m.usage.input_tokens = none ∧
      m.usage.output_tokens = 0 ∧
      messages_stream request_id model evs =
        .ok (.messageStart m) :: processEvents initState evs ∧
      (messages_stream request_id model evs).head? =
        (messages_stream request_id model []).head? :=
  ⟨initialMessage request_id model, rfl, rfl, rfl, rfl, rfl, rfl⟩

/-- C5 (confirmed): if the native trailing metadata signal arrives before
any terminal signal has been staged, the adapter yields the protocol
violation `Err("no message delta")` at that point instead of a
`MessageDelta` (and no `MessageDelta` was produced before it either). -/
theorem c5_metadata_before_stop (request_id model : String)
    (pre : List NativeEvent) (u : Option NativeUsage) (rest : List NativeEvent)
    (h : ∀ e ∈ pre, safeNoStop e = true) :
    ∃ s', stateAfter initState pre = some s' ∧
      s'.event_message_delta = none ∧
      messages_stream request_id model (pre ++ .metadata u :: rest) =
        messages_stream request_id model pre ++
          .err "no message delta" :: processEvents s' rest ∧
      ∀ it ∈ messages_stream request_id model pre, isMessageDeltaItem it = false := by
  obtain ⟨s', hs', hemd, hnone⟩ := processEvents_safeNoStop pre initState rfl h
  refine ⟨s', hs', hemd, ?_, ?_⟩
  · unfold messages_stream
    rw [processEvents_append pre (.metadata u :: rest) initState s' hs']
    have hstep : processEvents s' (.metadata u :: rest) =
        .err "no message delta" :: processEvents s' rest := by
      simp [processEvents, stepEvent, hemd]
    rw [hstep]
    simp
  · intro it hit
    unfold messages_stream at hit
    rcases List.mem_cons.mp hit with h1 | h2
    · subst h1; rfl
    · exact hnone it h2

/-- C5 witness: the metadata-first stream on concrete input. -/
theorem c5_metadata_before_stop_witness :
    ∃ s', stateAfter initState [] = some s' ∧
      s'.event_message_delta = none ∧
      messages_stream "id" "m" ([] ++ NativeEvent.metadata (some ⟨5, 2⟩) :: []) =
        messages_stream "id" "m" [] ++
          .err "no message delta" :: processEvents s' [] ∧
      ∀ it ∈ messages_stream "id" "m" [], isMessageDeltaItem it = false :=
  c5_metadata_before_stop "id" "m" [] (some ⟨5, 2⟩) [] (by simp)

/-- C6 counterexample: on the unrecognized native event the adapter does
not yield any error value — it panics (`unreachable!()`), so the claim
that a fatal decode error value is surfaced to the caller is false. -/
theorem c6_counterexample :
    ((messages_stream "id" "m" [.unknown]).countP isErrItem = 0) ∧
    messages_stream "id" "m" [.unknown] =
      [.ok (.messageStart (initialMessage "id" "m")), .panicked] :=
  ⟨rfl, rfl⟩

/-- C6 (amended): for every native event of a kind the adapter does not
recognize, the adapter panics (`unreachable!()`), aborting the generator
and consuming nothing further, rather than representing the event
canonically, yielding an error value, or continuing. -/
theorem c6_unknown_event_amended (request_id model : String)
    (pre rest : List NativeEvent) (h : ∀ e ∈ pre, safeEvent e = true) :
    messages_stream request_id model (pre ++ .unknown :: rest) =
      messages_stream request_id model pre ++ [.panicked] := by
  obtain ⟨s', hs'⟩ := stateAfter_safeEvent pre initState h
  unfold messages_stream
  rw [processEvents_append pre (.unknown :: rest) initState s' hs']
  have hstep : processEvents s' (NativeEvent.unknown :: rest) = [.panicked] := by
    simp [processEvents, stepEvent]
  rw [hstep]
  simp

/-- C6 witness: the unknown-event stream on concrete input. -/
theorem c6_unknown_event_witness :
    messages_stream "id" "m" ([] ++ NativeEvent.unknown :: []) =
      messages_stream "id" "m" [] ++ [.panicked] :=
  c6_unknown_event_amended "id" "m" [] [] (by simp)

/-- C1 counterexample: a native stream carrying two well-formed
terminal/metadata pairs produces a canonical stream with no error and no
panic (hence "successful") that contains two `MessageDelta` and two
`MessageStop` events — the staged state is cleared by the first metadata,
so the adapter does not detect the repetition. -/
theorem c1_counterexample :
    ((messages_stream "id" "m"
        [.messageStop .endTurn, .metadata (some ⟨5, 2⟩),
         .messageStop .endTurn, .metadata (some ⟨5, 2⟩)]).countP isErrItem = 0) ∧
    ((messages_stream "id" "m"
        [.messageStop .endTurn, .metadata (some ⟨5, 2⟩),
         .messageStop .endTurn, .metadata (some ⟨5, 2⟩)]).countP isPanicItem = 0) ∧
    ((messages_stream "id" "m"
        [.messageStop .endTurn, .metadata (some ⟨5, 2⟩),
         .messageStop .endTurn, .metadata (some ⟨5, 2⟩)]).countP isMessageDeltaItem = 2) ∧
    ((messages_stream "id" "m"
        [.messageStop .endTurn, .metadata (some ⟨5, 2⟩),
         .messageStop .endTurn, .metadata (some ⟨5, 2⟩)]).countP isMessageStopItem = 2) :=
  ⟨rfl, rfl, rfl, rfl⟩

/-- C1 (amended): for every stream whose native input is well-formed —
content-block traffic with recognized payloads followed by exactly one
terminal signal and exactly one trailing metadata signal — exactly one
`MessageDelta` is emitted, it carries the staged stop reason/stop sequence
together with the usage from the metadata, it is immediately followed by
exactly one `MessageStop` which is the terminal event, and the staged
state is cleared when they are emitted. -/
theorem c1_terminal_pair_amended (request_id model : String)
    (core : List NativeEvent) (r : NativeStopReason) (u : NativeUsage)
    (hcore : ∀ e ∈ core, cleanCore e = true) (hr : r ≠ .other) :
    ∃ sr s',
      convertStopReason r = some sr ∧
      messages_stream request_id model (core ++ [.messageStop r, .metadata (some u)]) =
        messages_stream request_id model core ++
          [.ok (.messageDelta (EventMessageDelta.mk sr none)
                  (Usage.mk (some u.input_tokens) u.output_tokens)),
           .ok .messageStop] ∧
      (messages_stream request_id model
          (core ++ [.messageStop r, .metadata (some u)])).countP isMessageDeltaItem = 1 ∧
      (messages_stream request_id model
          (core ++ [.messageStop r, .metadata (some u)])).countP isMessageStopItem = 1 ∧
      (messages_stream request_id model
          (core ++ [.messageStop r, .metadata (some u)])).getLast? =
        some (.ok .messageStop) ∧
      stateAfter initState (core ++ [.messageStop r, .metadata (some u)]) = some s' ∧
      s'.event_message_delta = none := by
  obtain ⟨s₁, hs₁, hemd₁, hblocks⟩ := processEvents_cleanCore core initState hcore
  have hemd₁' : s₁.event_message_delta = none := hemd₁
  obtain ⟨sr, hsr⟩ : ∃ sr, convertStopReason r = some sr := by
    cases r
    case other => exact absurd rfl hr
    all_goals exact ⟨_, rfl⟩
  have htail : processEvents s₁ [.messageStop r, .metadata (some u)] =
      [.ok (.messageDelta (EventMessageDelta.mk sr none)
              (Usage.mk (some u.input_tokens) u.output_tokens)),
       .ok .messageStop] := by
    simp [processEvents, stepEvent, hemd₁', hsr]
  have hmain :
      messages_stream request_id model (core ++ [.messageStop r, .metadata (some u)]) =
        messages_stream request_id model core ++
          [.ok (.messageDelta (EventMessageDelta.mk sr none)
                  (Usage.mk (some u.input_tokens) u.output_tokens)),
           .ok .messageStop] := by
    unfold messages_stream
    rw [processEvents_append core [.messageStop r, .metadata (some u)] initState s₁ hs₁,
      htail]
    simp
  have hcd : (processEvents initState core).countP isMessageDeltaItem = 0 :=
    countP_zero_of_blockItems _ _ hblocks blockItem_not_messageDelta
  have hcs : (processEvents initState core).countP isMessageStopItem = 0 :=
    countP_zero_of_blockItems _ _ hblocks blockItem_not_messageStop
  have hcount1 :
      (messages_stream request_id model
          (core ++ [.messageStop r, .metadata (some u)])).countP isMessageDeltaItem = 1 := by
    rw [hmain, List.countP_append]
    unfold messages_stream
    rw [List.countP_cons, hcd]
    rfl
  have hcount2 :
      (messages_stream request_id model
          (core ++ [.messageStop r, .metadata (some u)])).countP isMessageStopItem = 1 := by
    rw [hmain, List.countP_append]
    unfold messages_stream
    rw [List.countP_cons, hcs]
    rfl
  have hlast :
      (messages_stream request_id model
          (core ++ [.messageStop r, .metadata (some u)])).getLast? =
        some (.ok .messageStop) := by
    rw [hmain]
    exact getLast?_append_pair _ _ _
  have hstate : stateAfter initState (core ++ [.messageStop r, .metadata (some u)]) =
      some (AdapterState.mk none s₁.block_starts) := by
    rw [stateAfter_append core [.messageStop r, .metadata (some u)] initState s₁ hs₁]
    simp [stateAfter, stepEvent, hemd₁', hsr]
  exact ⟨sr, AdapterState.mk none s₁.block_starts, hsr, hmain, hcount1, hcount2, hlast,
    hstate, rfl⟩

/-- C1 witness: the well-formed stream of spec scenario C — one text
block, one terminal signal, one metadata signal. -/
theorem c1_terminal_pair_witness :
    ∃ sr s',
      convertStopReason .endTurn = some sr ∧
      messages_stream "id" "m"
          ([.contentBlockDelta 0 (some (.text "Hi")), .contentBlockStop 0] ++
            [.messageStop .endTurn, .metadata (some ⟨5, 2⟩)]) =
        messages_stream "id" "m"
            [.contentBlockDelta 0 (some (.text "Hi")), .contentBlockStop 0] ++
          [.ok (.messageDelta (EventMessageDelta.mk sr none)
                  (Usage.mk (some (NativeUsage.mk 5 2).input_tokens)
                    (NativeUsage.mk 5 2).output_tokens)),
           .ok .messageStop] ∧
      (messages_stream "id" "m"
          ([.contentBlockDelta 0 (some (.text "Hi")), .contentBlockStop 0] ++
            [.messageStop .endTurn, .metadata (some ⟨5, 2⟩)])).countP isMessageDeltaItem = 1 ∧
      (messages_stream "id" "m"
          ([.contentBlockDelta 0 (some (.text "Hi")), .contentBlockStop 0] ++
            [.messageStop .endTurn, .metadata (some ⟨5, 2⟩)])).countP isMessageStopItem = 1 ∧
      (messages_stream "id" "m"
          ([.contentBlockDelta 0 (some (.text "Hi")), .contentBlockStop 0] ++
            [.messageStop .endTurn, .metadata (some ⟨5, 2⟩)])).getLast? =
        some (.ok .messageStop) ∧
      stateAfter initState
          ([.contentBlockDelta 0 (some (.text "Hi")), .contentBlockStop 0] ++
            [.messageStop .endTurn, .metadata (some ⟨5, 2⟩)]) = some s' ∧
      s'.event_message_delta = none :=
  c1_terminal_pair_amended "id" "m"
    [.contentBlockDelta 0 (some (.text "Hi")), .contentBlockStop 0]
    .endTurn ⟨5, 2⟩ (by simp [cleanCore]) (by simp)

/-- C4 counterexample: an input containing exactly two native terminal
signals on which the adapter yields two protocol-violation errors (one
"no message delta", one "duplicated message delta") — not exactly one —
and keeps producing events after the error instead of stopping. -/
theorem c4_counterexample :
    ((messages_stream "id" "m"
        [.metadata (some ⟨1, 1⟩), .messageStop .endTurn, .messageStop .endTurn,
         .contentBlockStop 0]).countP isErrItem = 2) ∧
    (messages_stream "id" "m"
        [.metadata (some ⟨1, 1⟩), .messageStop .endTurn, .messageStop .endTurn,
         .contentBlockStop 0]).getLast? = some (.ok (.contentBlockStop 0)) :=
  ⟨rfl, rfl⟩

/-- C4 (amended): when a second native terminal signal arrives while one
is already staged, the adapter yields the protocol violation
`Err("duplicated message delta")` at that occurrence and does not
overwrite the staged stop reason (the staged delta still carries the
first signal's stop reason); the generator is not halted — it continues
consuming the remaining native events. -/
theorem c4_duplicate_stop_amended (request_id model : String)
    (pre rest : List NativeEvent) (r₁ r₂ : NativeStopReason)
    (hpre : ∀ e ∈ pre, cleanCore e = true) (hr₁ : r₁ ≠ .other) :
    ∃ sr₁ s',
      convertStopReason r₁ = some sr₁ ∧
      stateAfter initState (pre ++ [.messageStop r₁, .messageStop r₂]) = some s' ∧
      s'.event_message_delta = some (EventMessageDelta.mk sr₁ none) ∧
      messages_stream request_id model (pre ++ [.messageStop r₁, .messageStop r₂] ++ rest) =
        messages_stream request_id model pre ++
          .err "duplicated message delta" :: processEvents s' rest := by
  obtain ⟨s₁, hs₁, hemd₁, _⟩ := processEvents_cleanCore pre initState hpre
  have hemd₁' : s₁.event_message_delta = none := hemd₁
  obtain ⟨sr₁, hsr₁⟩ : ∃ sr₁, convertStopReason r₁ = some sr₁ := by
    cases r₁
    case other => exact absurd rfl hr₁
    all_goals exact ⟨_, rfl⟩
  have hstops : stateAfter s₁ [.messageStop r₁, .messageStop r₂] =
      some (AdapterState.mk (some (EventMessageDelta.mk sr₁ none)) s₁.block_starts) := by
    simp [stateAfter, stepEvent, hemd₁', hsr₁]
  have hstate : stateAfter initState (pre ++ [.messageStop r₁, .messageStop r₂]) =
      some (AdapterState.mk (some (EventMessageDelta.mk sr₁ none)) s₁.block_starts) := by
    rw [stateAfter_append pre [.messageStop r₁, .messageStop r₂] initState s₁ hs₁]
    exact hstops
  have htail : processEvents s₁ [.messageStop r₁, .messageStop r₂] =
      [.err "duplicated message delta"] := by
    simp [processEvents, stepEvent, hemd₁', hsr₁]
  refine ⟨sr₁, AdapterState.mk (some (EventMessageDelta.mk sr₁ none)) s₁.block_starts,
    hsr₁, hstate, rfl, ?_⟩
  unfold messages_stream
  have happ1 := processEvents_append (pre ++ [NativeEvent.messageStop r₁, NativeEvent.messageStop r₂])
    rest initState (AdapterState.mk (some (EventMessageDelta.mk sr₁ none)) s₁.block_starts) hstate
  have happ2 := processEvents_append pre [NativeEvent.messageStop r₁, NativeEvent.messageStop r₂]
    initState s₁ hs₁
  rw [happ1, happ2, htail]
  simp

/-- C4 witness: duplicate terminal signals followed by one further block
event on concrete input. -/
theorem c4_duplicate_stop_witness :
    ∃ sr₁ s',
      convertStopReason .endTurn = some sr₁ ∧
      stateAfter initState ([] ++ [.messageStop .endTurn, .messageStop .endTurn]) = some s' ∧
      s'.event_message_delta = some (EventMessageDelta.mk sr₁ none) ∧
      messages_stream "id" "m"
          ([] ++ [.messageStop .endTurn, .messageStop .endTurn] ++ [.contentBlockStop 0]) =
        messages_stream "id" "m" [] ++
          .err "duplicated message delta" :: processEvents s' [.contentBlockStop 0] :=
  c4_duplicate_stop_amended "id" "m" [] [.contentBlockStop 0] .endTurn .endTurn
    (by simp) (by simp)

/-- C7 (code bug, evaluation): for a native explicit content-block-start
carrying a tool-use announcement, the adapter emits a canonical
`ContentBlockStart` whose content block is `ContentPart::ToolUse` with
the announced id and name, but whose `input` is the JSON *string* "\x7b\x7d"
(`"{}".into()` produces `Value::String`), not the empty JSON object the
claim and the spec describe. -/
theorem c7_tool_use_start_eval :
    messages_stream "id" "m" [.contentBlockStart 0 (some (.toolUse "t1" "calc"))] =
      [.ok (.messageStart (initialMessage "id" "m")),
       .ok (.contentBlockStart 0 (.toolUse "t1" "calc" (.str "\x7b\x7d")))] ∧
    messages_stream "id" "m" [.contentBlockStart 0 (some .other)] =
      [.ok (.messageStart (initialMessage "id" "m")), .panicked] ∧
    messages_stream "id" "m" [.contentBlockStart 0 none] =
      [.ok (.messageStart (initialMessage "id" "m")),
       .ok (.contentBlockStart 0 (.text ""))] :=
  ⟨rfl, rfl, rfl⟩

/-- C8 (confirmed): `build()` returns an error naming a missing field
whenever `model`, `messages` or `max_tokens` has not been set, and when
all three are set it succeeds, returning exactly the accumulated fields
(the embedding is a pure function — no network call is modelled because
the source performs none; the setters are total, so finalization is the
only fallible step). -/
theorem c8_build_validation (b : CreateMessageRequestBuilder) :
    (b.model? = none ∨ b.messages? = none ∨ b.max_tokens? = none →
      ∃ msg, b.build = .error msg ∧
        ((msg = "model is required" ∧ b.model? = none) ∨
         (msg = "messages is required" ∧ b.messages? = none) ∨
         (msg = "max_tokens is required" ∧ b.max_tokens? = none))) ∧
    (∀ model messages max_tokens,
      b.model? = some model → b.messages? = some messages →
      b.max_tokens? = some max_tokens →
      b.build = .ok { model := model, messages := messages, max_tokens := max_tokens
                    , metadata := b.metadata?, stop_sequences := b.stop_sequences?
                    , system := b.system?.map Content.single
                    , temperature := b.temperature?, tool_choice := b.tool_choice?
                    , tools := b.tools?, top_k := b.top_k?, top_p := b.top_p? }) := by
  constructor
  · intro h
    cases hm : b.model? with
    | none =>
        exact ⟨"model is required",
          by simp [CreateMessageRequestBuilder.build, hm], Or.inl ⟨rfl, rfl⟩⟩
    | some model =>
        cases hms : b.messages? with
        | none =>
            exact ⟨"messages is required",
              by simp [CreateMessageRequestBuilder.build, hm, hms],
              Or.inr (Or.inl ⟨rfl, rfl⟩)⟩
        | some messages =>
            cases hmt : b.max_tokens? with
            | none =>
                exact ⟨"max_tokens is required",
                  by simp [CreateMessageRequestBuilder.build, hm, hms, hmt],
                  Or.inr (Or.inr ⟨rfl, rfl⟩)⟩
            | some mt => rcases h with h | h | h <;> simp_all
  · intro model messages max_tokens hm hms hmt
    simp [CreateMessageRequestBuilder.build, hm, hms, hmt]

/-- C8 witness: a builder with no model fails naming the model field; a
fully-specified builder succeeds. -/
theorem c8_build_validation_witness :
    (∃ msg,
      (CreateMessageRequest.builder.messages [Message.user (.single "Hi!")]).build =
          .error msg ∧
        ((msg = "model is required" ∧
            (CreateMessageRequest.builder.messages
              [Message.user (.single "Hi!")]).model? = none) ∨
         (msg = "messages is required" ∧
            (CreateMessageRequest.builder.messages
              [Message.user (.single "Hi!")]).messages? = none) ∨
         (msg = "max_tokens is required" ∧
            (CreateMessageRequest.builder.messages
              [Message.user (.single "Hi!")]).max_tokens? = none))) ∧
    (((CreateMessageRequest.builder.model "m").messages
        [Message.user (.single "Hi!")]).max_tokens 100).build =
      .ok { model := "m", messages := [Message.user (.single "Hi!")], max_tokens := 100
          , metadata := none, stop_sequences := none, system := none
          , temperature := none, tool_choice := none, tools := none
          , top_k := none, top_p := none } :=
  ⟨(c8_build_validation _).1 (Or.inl rfl),
   (c8_build_validation _).2 "m" [Message.user (.single "Hi!")] 100 rfl rfl rfl⟩

/-- C9 counterexample: the builder accepts `max_tokens = 0` and `build()`
succeeds with `max_tokens = 0`, so a successfully built request need not
have `max_tokens > 0`. -/
theorem c9_counterexample :
    ∃ r : CreateMessageRequest,
      (((CreateMessageRequest.builder.model "m").messages
          [Message.user (.single "Hi!")]).max_tokens 0).build = .ok r ∧
      r.max_tokens = 0 ∧ ¬ 0 < r.max_tokens := by
  refine ⟨_, rfl, rfl, by simp⟩

/-- C9 (amended): a successfully built request's `max_tokens` equals the
value passed to the `max_tokens` setter, whatever it is — the builder and
`build()` perform no positivity check. -/
theorem c9_max_tokens_amended (b : CreateMessageRequestBuilder) (n : Nat)
    (r : CreateMessageRequest) (h : (b.max_tokens n).build = .ok r) :
    r.max_tokens = n := by
  cases hm : b.model? with
  | none =>
      simp [CreateMessageRequestBuilder.build, CreateMessageRequestBuilder.max_tokens, hm] at h
  | some model =>
      cases hms : b.messages? with
      | none =>
          simp [CreateMessageRequestBuilder.build, CreateMessageRequestBuilder.max_tokens,
            hm, hms] at h
      | some messages =>
          simp [CreateMessageRequestBuilder.build, CreateMessageRequestBuilder.max_tokens,
            hm, hms] at h
          rw [← h]

/-- C9 witness: passing 5 to the setter produces a request with
`max_tokens = 5`. -/
theorem c9_max_tokens_witness :
    ∃ r : CreateMessageRequest,
      (((CreateMessageRequest.builder.model "m").messages
          [Message.user (.single "Hi!")]).max_tokens 5).build = .ok r ∧
      r.max_tokens = 5 := by
  refine ⟨_, rfl, ?_⟩
  exact c9_max_tokens_amended
    ((CreateMessageRequest.builder.model "m").messages [Message.user (.single "Hi!")]) 5 _ rfl

/-- C10 (confirmed): deserializing a `Message` whose `content` field is
the empty string panics instead of returning a deserialization error —
`optional_content_deserializer` collapses the empty string to `None` and
`content_deserializer` unwraps it. -/
theorem c10_empty_content_panics :
    deserialize_message (.obj [("role", .str "user"), ("content", .str "")]) =
      .panicked ∧
    optional_content_deserializer (.str "") = .ok none ∧
    content_deserializer (.str "") = .panicked :=
  ⟨rfl, rfl, rfl⟩

theorem stepEvent_out_delta (s : AdapterState) (e : NativeEvent) :
    ∀ j i (d : ContentPart),
      (stepEvent s e).1.get? j = some (.ok (.contentBlockDelta i d)) →
      i ∈ s.block_starts ∨
        ∃ k, k < j ∧ ∃ cb,
          (stepEvent s e).1.get? k = some (.ok (.contentBlockStart i cb)) := by
  intro j i d h
  cases e with
  | contentBlockDelta index dl =>
      by_cases hmem : index ∈ s.block_starts
      · cases dl with
        | none => cases j <;> simp_all [stepEvent, hmem]
        | some dl' =>
            cases dl' with
            | text t =>
                cases j with
                | zero =>
                    simp [stepEvent, hmem] at h
                    exact Or.inl (h.1 ▸ hmem)
                | succ j' => cases j' <;> simp_all [stepEvent, hmem]
            | toolUse pj =>
                cases j with
                | zero =>
                    simp [stepEvent, hmem] at h
                    exact Or.inl (h.1 ▸ hmem)
                | succ j' => cases j' <;> simp_all [stepEvent, hmem]
            | other => cases j <;> simp_all [stepEvent, hmem]
      · cases dl with
        | none =>
            cases j with
            | zero => simp [stepEvent, hmem] at h
            | succ j' => cases j' <;> simp_all [stepEvent, hmem]
        | some dl' =>
            cases dl' with
            | text t =>
                cases j with
                | zero => simp [stepEvent, hmem] at h
                | succ j' =>
                    cases j' with
                    | zero =>
                        simp [stepEvent, hmem] at h
                        obtain ⟨hi, hd⟩ := h
                        subst hi
                        refine Or.inr ⟨0, by omega, .text "", ?_⟩
                        simp [stepEvent, hmem]
                    | succ j'' => simp_all [stepEvent, hmem]
            | toolUse pj =>
                cases j with
                | zero => simp [stepEvent, hmem] at h
                | succ j' =>
                    cases j' with
                    | zero =>
                        simp [stepEvent, hmem] at h
                        obtain ⟨hi, hd⟩ := h
                        subst hi
                        refine Or.inr ⟨0, by omega, .text "", ?_⟩
                        simp [stepEvent, hmem]
                    | succ j'' => simp_all [stepEvent, hmem]
            | other =>
                cases j with
                | zero => simp [stepEvent, hmem] at h
                | succ j' => cases j' <;> simp_all [stepEvent, hmem]
  | contentBlockStart index st =>
      cases st with
      | none => cases j <;> simp_all [stepEvent]
      | some st' =>
          cases st' with
          | toolUse id name => cases j <;> simp_all [stepEvent]
          | other => cases j <;> simp_all [stepEvent]
  | contentBlockStop index => cases j <;> simp_all [stepEvent]
  | messageStart => simp_all [stepEvent]
  | messageStop r =>
      cases hemd : s.event_message_delta with
      | some d' => cases j <;> simp_all [stepEvent, hemd]
      | none => cases hr : convertStopReason r <;> cases j <;> simp_all [stepEvent, hemd]
  | metadata u =>
      cases hemd : s.event_message_delta with
      | none => cases j <;> simp_all [stepEvent, hemd]
      | some d' =>
          cases u with
          | none => cases j <;> simp_all [stepEvent, hemd]
          | some usage =>
              cases j with
              | zero => simp_all [stepEvent, hemd]
              | succ j' => cases j' <;> simp_all [stepEvent, hemd]
  | unknown => cases j <;> simp_all [stepEvent]

theorem stepEvent_blocks_subset (s : AdapterState) (e : NativeEvent)
    (s' : AdapterState) (hos : (stepEvent s e).2 = some s') :
    ∀ i, i ∈ s'.block_starts →
      i ∈ s.block_starts ∨
        ∃ k cb, (stepEvent s e).1.get? k = some (.ok (.contentBlockStart i cb)) := by
  intro i hi
  cases e with
  | contentBlockDelta index dl =>
      by_cases hmem : index ∈ s.block_starts
      · cases dl with
        | none => simp [stepEvent, hmem] at hos
        | some dl' =>
            cases dl' with
            | text t =>
                simp [stepEvent, hmem] at hos
                subst hos
                exact Or.inl hi
            | toolUse pj =>
                simp [stepEvent, hmem] at hos
                subst hos
                exact Or.inl hi
            | other => simp [stepEvent, hmem] at hos
      · cases dl with
        | none => simp [stepEvent, hmem] at hos
        | some dl' =>
            cases dl' with
            | text t =>
                simp [stepEvent, hmem] at hos
                subst hos
                rcases List.mem_cons.mp hi with hple | hple
                · subst hple
                  exact Or.inr ⟨0, .text "", by simp [stepEvent, hmem]⟩
                · exact Or.inl hple
            | toolUse pj =>
                simp [stepEvent, hmem] at hos
                subst hos
                rcases List.mem_cons.mp hi with hple | hple
                · subst hple
                  exact Or.inr ⟨0, .text "", by simp [stepEvent, hmem]⟩
                · exact Or.inl hple
            | other => simp [stepEvent, hmem] at hos
  | contentBlockStart index st =>
      by_cases hmem : index ∈ s.block_starts
      · cases st with
        | none =>
            simp [stepEvent, hmem] at hos
            subst hos
            exact Or.inl hi
        | some st' =>
            cases st' with
            | toolUse id name =>
                simp [stepEvent, hmem] at hos
                subst hos
                exact Or.inl hi
            | other => simp [stepEvent] at hos
      · cases st with
        | none =>
            simp [stepEvent, hmem] at hos
            subst hos
            rcases List.mem_cons.mp hi with hple | hple
            · subst hple
              exact Or.inr ⟨0, .text "", by simp [stepEvent, hmem]⟩
            · exact Or.inl hple
        | some st' =>
            cases st' with
            | toolUse id name =>
                simp [stepEvent, hmem] at hos
                subst hos
                rcases List.mem_cons.mp hi with hple | hple
                · subst hple
                  exact Or.inr ⟨0, .toolUse id name (.str "\x7b\x7d"),
                    by simp [stepEvent, hmem]⟩
                · exact Or.inl hple
            | other => simp [stepEvent] at hos
  | contentBlockStop index =>
      simp [stepEvent] at hos
      subst hos
      exact Or.inl hi
  | messageStart =>
      simp [stepEvent] at hos
      subst hos
      exact Or.inl hi
  | messageStop r =>
      cases hemd : s.event_message_delta with
      | some d' =>
          simp [stepEvent, hemd] at hos
          subst hos
          exact Or.inl hi
      | none =>
          cases hr : convertStopReason r with
          | none => simp [stepEvent, hemd, hr] at hos
          | some sr =>
              simp [stepEvent, hemd, hr] at hos
              subst hos
              exact Or.inl hi
  | metadata u =>
      cases hemd : s.event_message_delta with
      | none =>
          simp [stepEvent, hemd] at hos
          subst hos
          exact Or.inl hi
      | some d' =>
          cases u with
          | none => simp [stepEvent, hemd] at hos
          | some usage =>
              simp [stepEvent, hemd] at hos
              subst hos
              exact Or.inl hi
  | unknown => simp [stepEvent] at hos

theorem pe_delta_has_start (evs : List NativeEvent) :
    ∀ (s : AdapterState) (j i : Nat) (d : ContentPart),
      (processEvents s evs).get? j = some (.ok (.contentBlockDelta i d)) →
      i ∈ s.block_starts ∨
        ∃ k, k < j ∧ ∃ cb,
          (processEvents s evs).get? k = some (.ok (.contentBlockStart i cb)) := by
  induction evs with
  | nil => intro s j i d h; simp [processEvents] at h
  | cons e rest ih =>
    intro s j i d h
    cases hstep : stepEvent s e with
    | mk out os =>
      cases os with
      | none =>
        have hpe : processEvents s (e :: rest) = out := by
          simp [processEvents, hstep]
        rw [hpe] at h
        rcases stepEvent_out_delta s e j i d (by rw [hstep]; exact h) with
          hl | ⟨k, hk, cb, hget⟩
        · exact Or.inl hl
        · refine Or.inr ⟨k, hk, cb, ?_⟩
          rw [hstep] at hget
          rw [hpe]
          exact hget
      | some s' =>
        have hpe : processEvents s (e :: rest) = out ++ processEvents s' rest := by
          simp [processEvents, hstep]
        rw [hpe] at h
        by_cases hj : j < out.length
        · rw [List.get?_append hj] at h
          rcases stepEvent_out_delta s e j i d (by rw [hstep]; exact h) with
            hl | ⟨k, hk, cb, hget⟩
          · exact Or.inl hl
          · refine Or.inr ⟨k, hk, cb, ?_⟩
            rw [hstep] at hget
            rw [hpe, List.get?_append (lt_trans hk hj)]
            exact hget
        · push_neg at hj
          rw [List.get?_append_right hj] at h
          rcases ih s' (j - out.length) i d h with hmem' | ⟨k, hk, cb, hget⟩
          · rcases stepEvent_blocks_subset s e s' (by rw [hstep]) i hmem' with
              hl | ⟨k, cb, hget⟩
            · exact Or.inl hl
            · rw [hstep] at hget
              have hklen : k < out.length := by
                by_contra hbig
                push_neg at hbig
                rw [List.get?_eq_none.mpr hbig] at hget
                exact Option.noConfusion hget
              refine Or.inr ⟨k, lt_of_lt_of_le hklen hj, cb, ?_⟩
              rw [hpe, List.get?_append hklen]
              exact hget
          · refine Or.inr ⟨out.length + k, by omega, cb, ?_⟩
            rw [hpe, List.get?_append_right (by omega)]
            simpa [Nat.add_sub_cancel_left] using hget

/-- C3 (confirmed): in every canonical sequence produced by the
reconstruction adapter, a `ContentBlockDelta` for an index is always
preceded strictly earlier by a `ContentBlockStart` for that index — in
particular for indices whose native start was omitted, because the
adapter synthesizes a `ContentBlockStart` with an empty text block,
records the index, and only then emits the delta. -/
theorem c3_delta_preceded_by_start (request_id model : String)
    (evs : List NativeEvent) (j i : Nat) (d : ContentPart)
    (h : (messages_stream request_id model evs).get? j =
      some (.ok (.contentBlockDelta i d))) :
    ∃ k, k < j ∧ ∃ cb,
      (messages_stream request_id model evs).get? k =
        some (.ok (.contentBlockStart i cb)) := by
  unfold messages_stream at h ⊢
  cases j with
  | zero => simp at h
  | succ j' =>
    rw [List.get?_cons_succ] at h
    rcases pe_delta_has_start evs initState j' i d h with hmem | ⟨k, hk, cb, hget⟩
    · simp [initState] at hmem
    · exact ⟨k + 1, by omega, cb, by simpa using hget⟩

/-- C3 witness: a delta for index 0 with no native start — the delta sits
at position 2 of the canonical sequence and a start for index 0 is found
strictly earlier. -/
theorem c3_delta_preceded_by_start_witness :
    ∃ k, k < 2 ∧ ∃ cb,
      (messages_stream "id" "m" [.contentBlockDelta 0 (some (.text "Hi"))]).get? k =
        some (.ok (.contentBlockStart 0 cb)) :=
  c3_delta_preceded_by_start "id" "m" [.contentBlockDelta 0 (some (.text "Hi"))] 2 0
    (.textDelta "Hi") rfl
